import Mathlib

/-!
Verification development for the apiserver data-access layer
(`src/apiserver/apiserver/model.py`).

The module composer builds ranking queries over the bot, `user`,
`organization` and `hackathon_participant` tables.  We embed the relational
data as lists of rows and each query as the Lean function computing the rows
the query produces when executed:

* `ranked_bots_rows` — semantics of `ranked_bots_query`: order all bot rows
  by descending `score` and number them `1, 2, ...` with a running counter.
* `hackathon_ranked_bots_rows` — semantics of `hackathon_ranked_bots_query`:
  inner-join bots with the participants of a hackathon, then the same
  counter-ranking on the restricted set.
* `all_users_rows` — semantics of the `all_users` select: a LEFT OUTER JOIN
  from users to ranked bots and to organizations, grouped by user id, with
  SQL aggregate semantics (`COUNT(*)` counts group rows including the
  null-extended row, `SUM`/`MAX`/`MIN` skip NULLs and are NULL on an
  all-NULL group, `COALESCE(x, 0)` maps NULL to 0).
* `ranked_users_rows` — semantics of `ranked_users_query`: inner join users
  to a fresh global ranking, grouped by user id, `rank = MIN(bot_rank)`.
* `hackathon_ranked_bots_users_rows` — semantics of
  `hackathon_ranked_bots_users_query`: global ranking joined (inner) to
  users and to the hackathon-local ranking on `(user_id, bot_id)`, and
  (outer) to organizations.
* `total_ranked_bots_count` — semantics of the `total_ranked_bots` scalar.

Query *construction* (as opposed to execution) is embedded separately:
each `..._query` builder returns the built expression's distinguishing data
(counter variable name and alias) together with the list of side effects the
Python function body performs while composing, so that claims about the
construction act itself (I/O, parameter defaults) are statable.

Scores are floats in the database; ranking only compares them, so they are
embedded as integers (an ordered domain), with no arithmetic performed.
-/

/-- A row of the bot table, restricted to the columns the queries read. -/
structure BotRow where
  user_id : Nat
  id : Nat
  mu : Int
  score : Int
  games_played : Nat
  version_number : Nat
  language : String
deriving DecidableEq, Repr

/-- A row of the `user` table, restricted to the columns the queries read. -/
structure UserRow where
  id : Nat
  username : String
  player_level : String
  organization_id : Option Nat
  country_code : Option String
  country_subdivision_code : Option String
  email : Option String
deriving DecidableEq, Repr

/-- A row of the `organization` table, restricted to the queried columns. -/
structure OrganizationRow where
  id : Nat
  organization_name : String
deriving DecidableEq, Repr

/-- A row of the `hackathon_participant` table (many-to-many relation). -/
structure HackathonParticipantRow where
  hackathon_id : Nat
  user_id : Nat
deriving DecidableEq, Repr

/-- The database state the queries of this module read. -/
structure DB where
  users : List UserRow
  organizations : List OrganizationRow
  bots : List BotRow
  hackathon_participants : List HackathonParticipantRow
deriving Repr

/-- Insert a bot into a list that is sorted by descending score, keeping
earlier rows before later equal-score rows (stable, as the ORDER BY leaves
ties in backing-row order). -/
def insertDesc (b : BotRow) : List BotRow → List BotRow
  | [] => [b]
  | x :: xs => if x.score < b.score then b :: x :: xs else x :: insertDesc b xs

/-- `ORDER BY score DESC`: stable sort of bot rows by descending score. -/
def sortDesc : List BotRow → List BotRow
  | [] => []
  | b :: bs => insertDesc b (sortDesc bs)

/-- An output row of `ranked_bots_query`: the `(@v:=@v + 1) AS bot_rank`
column followed by the projected bot columns. -/
structure RankedBot where
  bot_rank : Nat
  user_id : Nat
  bot_id : Nat
  mu : Int
  score : Int
  games_played : Nat
  version_number : Nat
  language : String
deriving DecidableEq, Repr

/-- Project a bot row with its counter value, as the SELECT list does. -/
def rankRow (r : Nat) (b : BotRow) : RankedBot :=
  ⟨r, b.user_id, b.id, b.mu, b.score, b.games_played, b.version_number, b.language⟩

/-- The running counter: number the rows `r, r+1, ...` in list order. -/
def addRanks : Nat → List BotRow → List RankedBot
  | _, [] => []
  | r, b :: bs => rankRow r b :: addRanks (r + 1) bs

/-- Rows produced by executing `ranked_bots_query`: all bots ordered by
descending score, with the counter (initialised to 0 by the `rn` subselect)
incremented once per row, so ranks are `1, 2, ...`. -/
def ranked_bots_rows (db : DB) : List RankedBot :=
  addRanks 1 (sortDesc db.bots)

/-- The inner join of `bots` with `hackathon_participants` on
`bots.user_id = hp.user_id AND hp.hackathon_id = H`: one row per matching
(bot, participant) pair, projected to the bot columns. -/
def hackathon_join_bots (db : DB) (H : Nat) : List BotRow :=
  db.bots.flatMap (fun b =>
    (db.hackathon_participants.filter
      (fun p => p.user_id == b.user_id && p.hackathon_id == H)).map (fun _ => b))

/-- Rows produced by executing `hackathon_ranked_bots_query H`: the joined
bot set ordered by descending score inside `temptable`, then numbered by the
outer select's running counter. -/
def hackathon_ranked_bots_rows (db : DB) (H : Nat) : List RankedBot :=
  addRanks 1 (sortDesc (hackathon_join_bots db H))

/-- Whether some `hackathon_participant` row links user `u` to hackathon `H`. -/
def is_participant (db : DB) (H u : Nat) : Bool :=
  db.hackathon_participants.any (fun p => p.user_id == u && p.hackathon_id == H)

/-- SQL `MAX` over the non-NULL values of a group, then `COALESCE(·, 0)`:
0 when the group has no non-NULL value. -/
def maxOrZero : List Int → Int
  | [] => 0
  | x :: xs => xs.foldl max x

/-- SQL `MIN` over the non-NULL values of a group, with no default:
NULL (`none`) when the group has no non-NULL value. -/
def minOpt : List Nat → Option Nat
  | [] => none
  | x :: xs => some (xs.foldl min x)

/-- The LEFT OUTER JOIN group of one user row in the `all_users` select:
the user's ranked-bot rows each left-joined to the matching organization.
A side with no match contributes a single null-extended row (`none`). -/
def userGroupRows (db : DB) (u : UserRow) : List (Option RankedBot × Option OrganizationRow) :=
  let rbs := (ranked_bots_rows db).filter (fun r => r.user_id == u.id)
  let lhs : List (Option RankedBot) := if rbs.isEmpty then [none] else rbs.map some
  lhs.flatMap (fun rb =>
    let os := db.organizations.filter (fun o => u.organization_id == some o.id)
    if os.isEmpty then [(rb, none)] else os.map (fun o => (rb, some o)))

/-- An output row of the `all_users` select. -/
structure AllUsersRow where
  user_id : Nat
  username : String
  player_level : String
  organization_id : Option Nat
  organization_name : Option String
  country_code : Option String
  country_subdivision_code : Option String
  email : Option String
  num_bots : Nat
  num_games : Nat
  num_submissions : Nat
  score : Int
  rank : Option Nat
deriving DecidableEq, Repr

/-- Rows produced by executing the `all_users` select: one group per user
(GROUP BY `users.id`), `COUNT(*)` over the group's rows, `SUM`/`MAX`/`MIN`
over the group's non-NULL bot values, coalesced as in the source. -/
def all_users_rows (db : DB) : List AllUsersRow :=
  db.users.map (fun u =>
    let g := userGroupRows db u
    { user_id := u.id
      username := u.username
      player_level := u.player_level
      organization_id := u.organization_id
      organization_name := (g.head?.bind (fun x => x.2)).map (fun o => o.organization_name)
      country_code := u.country_code
      country_subdivision_code := u.country_subdivision_code
      email := u.email
      num_bots := g.length
      num_games := (g.filterMap (fun x => x.1.map (fun r => r.games_played))).sum
      num_submissions := (g.filterMap (fun x => x.1.map (fun r => r.version_number))).sum
      score := maxOrZero (g.filterMap (fun x => x.1.map (fun r => r.score)))
      rank := minOpt (g.filterMap (fun x => x.1.map (fun r => r.bot_rank))) })

/-- An output row of `ranked_users_query`. -/
structure RankedUserRow where
  user_id : Nat
  username : String
  rank : Nat
deriving DecidableEq, Repr

/-- The group of one user in `ranked_users_query` (inner join to a fresh
global ranking, GROUP BY `users.id`): `none` when the user joins no ranked
bot (inner join drops the user), otherwise the row with `MIN(bot_rank)`. -/
def userBestRow (db : DB) (u : UserRow) : Option RankedUserRow :=
  match (ranked_bots_rows db).filter (fun r => r.user_id == u.id) with
  | [] => none
  | r :: rs => some ⟨u.id, u.username, (rs.map (fun x => x.bot_rank)).foldl min r.bot_rank⟩

/-- Rows produced by executing `ranked_users_query`: one row per user that
joins at least one ranked bot. -/
def ranked_users_rows (db : DB) : List RankedUserRow :=
  db.users.filterMap (userBestRow db)

/-- Rows produced by executing the `total_ranked_bots` scalar select:
`COUNT(*) FROM bot WHERE games_played > 0`. -/
def total_ranked_bots_count (db : DB) : Nat :=
  (db.bots.filter (fun b => decide (0 < b.games_played))).length

/-- The LEFT OUTER JOIN to organizations used by the composite selects:
matching organization rows, or a single null-extended row when none match. -/
def orgJoin (db : DB) (oid : Option Nat) : List (Option OrganizationRow) :=
  let os := db.organizations.filter (fun o => oid == some o.id)
  if os.isEmpty then [none] else os.map some

/-- An output row of `hackathon_ranked_bots_users_query`. -/
structure HRBURow where
  user_id : Nat
  username : String
  player_level : String
  organization_id : Option Nat
  organization_name : Option String
  country_code : Option String
  country_subdivision_code : Option String
  bot_id : Nat
  num_games : Nat
  num_submissions : Nat
  mu : Int
  score : Int
  language : String
  global_rank : Nat
  local_rank : Nat
deriving DecidableEq, Repr

/-- Rows produced by executing `hackathon_ranked_bots_users_query H`: the
global ranking inner-joined to users on `user_id`, inner-joined to the
hackathon-local ranking on `(user_id, bot_id)`, outer-joined to
organizations; `global_rank` is the global row's counter value and
`local_rank` the local row's. -/
def hackathon_ranked_bots_users_rows (db : DB) (H : Nat) : List HRBURow :=
  (ranked_bots_rows db).flatMap (fun g =>
    (db.users.filter (fun u => g.user_id == u.id)).flatMap (fun u =>
      ((hackathon_ranked_bots_rows db H).filter
          (fun l => l.user_id == g.user_id && l.bot_id == g.bot_id)).flatMap (fun l =>
        (orgJoin db u.organization_id).map (fun o =>
          { user_id := u.id
            username := u.username
            player_level := u.player_level
            organization_id := u.organization_id
            organization_name := o.map (fun x => x.organization_name)
            country_code := u.country_code
            country_subdivision_code := u.country_subdivision_code
            bot_id := g.bot_id
            num_games := g.games_played
            num_submissions := g.version_number
            mu := g.mu
            score := g.score
            language := g.language
            global_rank := g.bot_rank
            local_rank := l.bot_rank }))))

/-- The distinguishing data of a built ranking query expression: the SQL
counter variable name spliced into the text fragments, and the subquery
alias. -/
structure QueryExpr where
  counterVar : String
  aliasName : String
deriving DecidableEq, Repr

/-- A side effect performed by a Python query-builder function body while
composing (before the expression is ever executed).  `printStdout s` is a
`print(...)` call; `s` identifies what is printed (the rendered SQL of the
named subquery). -/
inductive BuildEffect where
  | printStdout : String → BuildEffect
deriving DecidableEq, Repr

/-- Default of the `variable` parameter of `ranked_bots_query`. -/
def ranked_bots_variable_default : String := "rank"

/-- Default of the keyword-only `variable` parameter of
`hackathon_ranked_bots_query` (model.py line 61). -/
def hackathon_variable_default : String := "hrank"

/-- The `variable` parameter of `hackathon_ranked_bots_query` as declared:
`some` because the parameter carries a default value in the source
(`variable="hrank"`); it would be `none` for a required parameter with no
default. -/
def hrbq_variable_default : Option String := some hackathon_variable_default

/-- Construction semantics of `ranked_bots_query(variable="rank",
alias="ranked_bots")`: a caller-omitted argument is `none` and resolves to
the default.  The body only builds the select expression: no side effects,
no failure. -/
def ranked_bots_query (var aliasArg : Option String) : QueryExpr × List BuildEffect :=
  (⟨var.getD ranked_bots_variable_default, aliasArg.getD ("ranked_bots")⟩, [])

/-- Construction semantics of `hackathon_ranked_bots_query(hackathon_id, *,
variable="hrank", alias="hackathon_ranked_bots")`.  The body executes
`print(str(temptable))` (model.py line 85), writing the rendered SQL of the
`temptable` subquery to stdout, then builds the outer select. -/
def hackathon_ranked_bots_query (hackathon_id : Nat) (var aliasArg : Option String) :
    QueryExpr × List BuildEffect :=
  let _ := hackathon_id
  (⟨var.getD hackathon_variable_default, aliasArg.getD ("hackathon_ranked_bots")⟩,
    [BuildEffect.printStdout ("temptable")])

/-- Construction semantics of `ranked_users_query(alias="ranked_users")`:
builds a fresh inner global ranking with counter variable `"rurank"`, then
the outer grouped select.  No side effects, no failure. -/
def ranked_users_query (aliasArg : Option String) : QueryExpr × List BuildEffect :=
  let inner := ranked_bots_query (some ("rurank")) none
  (⟨inner.1.counterVar, aliasArg.getD ("ranked_users")⟩, inner.2)

/-- Construction semantics of `hackathon_ranked_bots_users_query(
hackathon_id, *, alias="hackathon_ranked_bots_users")`: calls
`hackathon_ranked_bots_query(hackathon_id, alias="local_rank")` (inheriting
its print effect) and joins it with the module-level `ranked_bots` instance,
whose counter variable is `"rank"`. -/
def hackathon_ranked_bots_users_query (hackathon_id : Nat) (aliasArg : Option String) :
    QueryExpr × List BuildEffect :=
  let inner := hackathon_ranked_bots_query hackathon_id none (some ("local_rank"))
  (⟨ranked_bots_variable_default, aliasArg.getD ("hackathon_ranked_bots_users")⟩, inner.2)

/-- The configuration values `model.py` reads (from the `config` module). -/
structure Config where
  GCLOUD_PROJECT : String
  GCLOUD_COMPILATION_BUCKET : String
  GCLOUD_BOT_BUCKET : String
  GCLOUD_REPLAY_BUCKETS : List String
  GCLOUD_ERROR_LOG_BUCKET : String
deriving DecidableEq, Repr

/-- A constructed cloud-storage client, bound to a project identity. -/
structure StorageClient where
  project : String
deriving DecidableEq, Repr

/-- A bucket handle, carrying the client it was requested through and the
bucket's name. -/
structure Bucket where
  client : StorageClient
  name : String
deriving DecidableEq, Repr

/-- A storage request made against the backend: `get_bucket(name)`. -/
inductive StorageEvent where
  | bucketRequest : String → StorageEvent
deriving DecidableEq, Repr

/-- A Python exception raised by an accessor before any bucket request. -/
inductive PyError where
  | indexError
deriving DecidableEq, Repr

/-- `get_storage_client()`: constructs a fresh client bound to the
configured project. -/
def get_storage_client (cfg : Config) : StorageClient :=
  ⟨cfg.GCLOUD_PROJECT⟩

/-- `Client.get_bucket(name)`: issues one bucket request to the backend and
returns the handle. -/
def get_bucket (c : StorageClient) (name : String) : Bucket × List StorageEvent :=
  (⟨c, name⟩, [StorageEvent.bucketRequest name])

/-- `get_compilation_bucket()`. -/
def get_compilation_bucket (cfg : Config) : Bucket × List StorageEvent :=
  get_bucket (get_storage_client cfg) cfg.GCLOUD_COMPILATION_BUCKET

/-- `get_bot_bucket()`. -/
def get_bot_bucket (cfg : Config) : Bucket × List StorageEvent :=
  get_bucket (get_storage_client cfg) cfg.GCLOUD_BOT_BUCKET

/-- `get_error_log_bucket()`. -/
def get_error_log_bucket (cfg : Config) : Bucket × List StorageEvent :=
  get_bucket (get_storage_client cfg) cfg.GCLOUD_ERROR_LOG_BUCKET

/-- Positional lookup in a list, `none` when the position is past the end. -/
def listGetOpt : List String → Nat → Option String
  | [], _ => none
  | x :: _, 0 => some x
  | _ :: xs, n + 1 => listGetOpt xs n

/-- Python list indexing `l[i]`: non-negative indices from the front,
negative indices from the back (`l[-1]` is the last element), `none`
(an `IndexError`) outside `-len(l) .. len(l) - 1`. -/
def pyIndex (l : List String) (i : Int) : Option String :=
  if 0 ≤ i then listGetOpt l i.toNat
  else if i.natAbs ≤ l.length then listGetOpt l (l.length - i.natAbs)
  else none

/-- `get_replay_bucket(kind=0)`: a caller-omitted `kind` is `none` and
resolves to 0.  Python evaluates `get_storage_client()` first, then the
argument expression `config.GCLOUD_REPLAY_BUCKETS[kind]`; an out-of-range
`kind` raises `IndexError` there, before `get_bucket` is ever invoked, so
no bucket request appears in the event trace. -/
def get_replay_bucket (cfg : Config) (kind : Option Int) :
    Except PyError Bucket × List StorageEvent :=
  let client := get_storage_client cfg
  match pyIndex cfg.GCLOUD_REPLAY_BUCKETS (kind.getD 0) with
  | some name =>
    let r := get_bucket client name
    (Except.ok r.1, r.2)
  | none => (Except.error PyError.indexError, [])

/-- A concrete database used by the witnesses: two users, three bots with
distinct scores and distinct ids, one hackathon-7 participant. -/
def dbW : DB :=
  { users := [⟨1, "alice", "Professional", none, none, none, none⟩,
              ⟨2, "bo", "Amateur", none, none, none, none⟩]
    organizations := []
    bots := [⟨1, 10, 50, 95, 3, 2, "Python"⟩,
             ⟨1, 11, 40, 80, 2, 1, "Rust"⟩,
             ⟨2, 12, 45, 90, 5, 3, "OCaml"⟩]
    hackathon_participants := [⟨7, 1⟩] }

/-- A concrete single-user, zero-bot database. -/
def dbNoBots : DB :=
  { users := [⟨1, "alice", "Amateur", none, none, none, none⟩]
    organizations := []
    bots := []
    hackathon_participants := [] }

/-- A concrete database where bot ids are only unique per user — both
users own a bot with id 0, as under the composite `(user_id, bot_id)`
key — three bots with distinct scores, both users hackathon-7
participants. -/
def dbW2 : DB :=
  { users := [⟨1, "alice", "Professional", none, none, none, none⟩,
              ⟨2, "bo", "Amateur", none, none, none, none⟩]
    organizations := []
    bots := [⟨1, 0, 50, 95, 3, 2, "Python"⟩,
             ⟨1, 1, 40, 80, 2, 1, "Rust"⟩,
             ⟨2, 0, 45, 90, 5, 3, "OCaml"⟩]
    hackathon_participants := [⟨7, 1⟩, ⟨7, 2⟩] }

/-- A concrete configuration used by the storage witnesses. -/
def cfgW : Config :=
  { GCLOUD_PROJECT := "proj"
    GCLOUD_COMPILATION_BUCKET := "comp-bucket"
    GCLOUD_BOT_BUCKET := "bot-bucket"
    GCLOUD_REPLAY_BUCKETS := ["replay0", "replay1"]
    GCLOUD_ERROR_LOG_BUCKET := "errlog-bucket" }

theorem insertDesc_perm (b : BotRow) (l : List BotRow) :
    (insertDesc b l).Perm (b :: l) := by
  induction l with
  | nil => exact List.Perm.refl _
  | cons x xs ih =>
    simp only [insertDesc]
    split
    · exact List.Perm.refl _
    · exact (List.Perm.cons x ih).trans (List.Perm.swap b x xs)

theorem sortDesc_perm (l : List BotRow) : (sortDesc l).Perm l := by
  induction l with
  | nil => exact List.Perm.refl _
  | cons b bs ih =>
    exact (insertDesc_perm b (sortDesc bs)).trans (List.Perm.cons b ih)

theorem insertDesc_pairwise (b : BotRow) (l : List BotRow)
    (h : l.Pairwise (fun a c => c.score ≤ a.score)) :
    (insertDesc b l).Pairwise (fun a c => c.score ≤ a.score) := by
  induction l with
  | nil => simp [insertDesc]
  | cons x xs ih =>
    rw [List.pairwise_cons] at h
    simp only [insertDesc]
    split
    · rename_i hx
      refine List.pairwise_cons.mpr ⟨?_, List.pairwise_cons.mpr ⟨h.1, h.2⟩⟩
      intro y hy
      rcases List.mem_cons.mp hy with hyb | hy
      · exact hyb ▸ le_of_lt hx
      · exact le_trans (h.1 y hy) (le_of_lt hx)
    · rename_i hx
      refine List.pairwise_cons.mpr ⟨?_, ih h.2⟩
      intro y hy
      rcases List.mem_cons.mp ((insertDesc_perm b xs).mem_iff.mp hy) with hyb | hy
      · exact hyb ▸ not_lt.mp hx
      · exact h.1 y hy

theorem sortDesc_pairwise (l : List BotRow) :
    (sortDesc l).Pairwise (fun a c => c.score ≤ a.score) := by
  induction l with
  | nil => exact List.Pairwise.nil
  | cons b bs ih => exact insertDesc_pairwise b (sortDesc bs) ih

theorem addRanks_map_rank (r : Nat) (l : List BotRow) :
    (addRanks r l).map (fun x => x.bot_rank) = List.range' r l.length := by
  induction l generalizing r with
  | nil => rfl
  | cons b bs ih => simp [addRanks, List.range', rankRow, ih]

theorem mem_addRanks_score_rank (r : Nat) (l : List BotRow) (y : RankedBot)
    (hy : y ∈ addRanks r l) : (∃ b ∈ l, y.score = b.score) ∧ r ≤ y.bot_rank := by
  induction l generalizing r with
  | nil => cases hy
  | cons b bs ih =>
    rcases List.mem_cons.mp hy with hyb | hy
    · exact ⟨⟨b, List.mem_cons_self b bs, by rw [hyb]; rfl⟩, by rw [hyb]; exact Nat.le_refl r⟩
    · obtain ⟨⟨b', hb', hsc⟩, hrk⟩ := ih (r + 1) hy
      exact ⟨⟨b', List.mem_cons_of_mem b hb', hsc⟩, Nat.le_of_succ_le hrk⟩

theorem addRanks_pairwise (r : Nat) (l : List BotRow)
    (h : l.Pairwise (fun a c => c.score ≤ a.score)) :
    (addRanks r l).Pairwise (fun a c => c.score ≤ a.score ∧ a.bot_rank < c.bot_rank) := by
  induction l generalizing r with
  | nil => exact List.Pairwise.nil
  | cons b bs ih =>
    rw [List.pairwise_cons] at h
    refine List.pairwise_cons.mpr ⟨?_, ih (r + 1) h.2⟩
    intro y hy
    obtain ⟨⟨b', hb', hsc⟩, hrk⟩ := mem_addRanks_score_rank (r + 1) bs y hy
    exact ⟨hsc ▸ h.1 b' hb', Nat.lt_of_lt_of_le (Nat.lt_succ_self r) hrk⟩

theorem addRanks_map_eq {β : Type} (f : RankedBot → β) (g : BotRow → β)
    (hfg : ∀ r b, f (rankRow r b) = g b) (r : Nat) (l : List BotRow) :
    (addRanks r l).map f = l.map g := by
  induction l generalizing r with
  | nil => rfl
  | cons b bs ih => simp [addRanks, hfg, ih]

/-- C1: over every non-empty bot set, `ranked_bots_query` assigns ranks
that are exactly `1, 2, ..., N` (`N` = total bot rows, so a contiguous
permutation of `1..N` with no gaps or duplicates), the rows are ordered by
descending score with rank strictly increasing down the list, and the
projected rows are a permutation of the bot table. -/
theorem ranked_bots_rank_spec (db : DB) (h : db.bots ≠ []) :
    (ranked_bots_rows db).map (fun x => x.bot_rank) = List.range' 1 db.bots.length
  ∧ (ranked_bots_rows db).Pairwise (fun a c => c.score ≤ a.score ∧ a.bot_rank < c.bot_rank)
  ∧ ((ranked_bots_rows db).map (fun x => (x.user_id, x.bot_id, x.score))).Perm
      (db.bots.map (fun b => (b.user_id, b.id, b.score))) := by
  refine ⟨?_, ?_, ?_⟩
  · rw [ranked_bots_rows, addRanks_map_rank, (sortDesc_perm db.bots).length_eq]
  · exact addRanks_pairwise 1 _ (sortDesc_pairwise db.bots)
  · rw [ranked_bots_rows, addRanks_map_eq _ (fun b => (b.user_id, b.id, b.score)) (fun _ _ => rfl)]
    exact (sortDesc_perm db.bots).map _

theorem ranked_bots_rank_spec_witness :
    dbW.bots ≠ []
  ∧ ((ranked_bots_rows dbW).map (fun x => x.bot_rank) = List.range' 1 dbW.bots.length
     ∧ (ranked_bots_rows dbW).Pairwise
         (fun a c => c.score ≤ a.score ∧ a.bot_rank < c.bot_rank)
     ∧ ((ranked_bots_rows dbW).map (fun x => (x.user_id, x.bot_id, x.score))).Perm
         (dbW.bots.map (fun b => (b.user_id, b.id, b.score)))) :=
  ⟨by decide, ranked_bots_rank_spec dbW (by decide)⟩

/-- C8: the `total_ranked_bots` scalar equals the count of bot rows with
`games_played > 0`, and appending a bot with zero games played leaves the
count unchanged. -/
theorem total_ranked_bots_spec (db : DB) :
    total_ranked_bots_count db = db.bots.countP (fun b => decide (0 < b.games_played))
  ∧ ∀ b : BotRow, b.games_played = 0 →
      total_ranked_bots_count { db with bots := db.bots ++ [b] }
        = total_ranked_bots_count db := by
  constructor
  · rw [total_ranked_bots_count, List.countP_eq_length_filter]
  · intro b hb
    simp [total_ranked_bots_count, List.filter_append, hb]

theorem total_ranked_bots_spec_witness :
    (⟨1, 99, 0, 0, 0, 0, "x"⟩ : BotRow).games_played = 0
  ∧ total_ranked_bots_count { dbW with bots := dbW.bots ++ [⟨1, 99, 0, 0, 0, 0, "x"⟩] }
      = total_ranked_bots_count dbW :=
  ⟨rfl, (total_ranked_bots_spec dbW).2 _ rfl⟩

/-- C2 (failing input): in `all_users`, the single user of `dbNoBots` owns
zero bots, yet the executed select reports `num_bots = 1`: `COUNT(*)`
counts the null-extended row of the LEFT OUTER JOIN, and the
`COALESCE(COUNT(*), 0)` never sees a NULL.  The remaining aggregates match
the claim: `num_games = 0`, `num_submissions = 0`, `score = 0`, `rank`
NULL. -/
theorem all_users_zero_bots_eval :
    (all_users_rows dbNoBots).map
        (fun r => (r.num_bots, r.num_games, r.num_submissions, r.score, r.rank))
      = [(1, 0, 0, 0, none)] := by decide

/-- C3 (failing input): composing `ranked_bots_query` and
`ranked_users_query` performs no side effect, but
`hackathon_ranked_bots_query` executes `print(str(temptable))` during
composition (model.py line 85), as does `hackathon_ranked_bots_users_query`
through it — console I/O at call time. -/
theorem query_builders_build_effects :
    (ranked_bots_query none none).2 = []
  ∧ (ranked_users_query none).2 = []
  ∧ (hackathon_ranked_bots_query 1 none none).2 = [BuildEffect.printStdout ("temptable")]
  ∧ (hackathon_ranked_bots_users_query 1 none).2
      = [BuildEffect.printStdout ("temptable")] :=
  ⟨rfl, rfl, rfl, rfl⟩

/-- C6 (counterexample): the `variable` parameter of
`hackathon_ranked_bots_query` is not a required parameter with no default:
its declared default is `some "hrank"`, and a call that omits the argument
succeeds and builds the query with counter variable `"hrank"`. -/
theorem hackathon_counter_param_has_default :
    hrbq_variable_default ≠ none
  ∧ (hackathon_ranked_bots_query 1 none none).1.counterVar = hackathon_variable_default :=
  ⟨by decide, rfl⟩

/-- C6 (amended): the hackathon ranking builder exposes the counter
variable name as a keyword-only parameter with default value `"hrank"`;
callers may omit it, in which case `"hrank"` is used, a name distinct from
the global builder's default `"rank"`; a caller-supplied name is used
verbatim. -/
theorem hackathon_counter_default_is_hrank :
    hrbq_variable_default = some ("hrank")
  ∧ hackathon_variable_default ≠ ranked_bots_variable_default
  ∧ (∀ hid : Nat, ∀ v : String, ∀ a : Option String,
      (hackathon_ranked_bots_query hid (some v) a).1.counterVar = v)
  ∧ (∀ hid : Nat, ∀ a : Option String,
      (hackathon_ranked_bots_query hid none a).1.counterVar = hackathon_variable_default) :=
  ⟨rfl, by decide, fun _ _ _ => rfl, fun _ _ => rfl⟩

/-- C9: each bucket accessor constructs a storage client bound to the
configured project and requests the bucket named by the corresponding
configuration value; `get_replay_bucket` selects the configured replay
bucket at index `kind`, and an omitted `kind` defaults to 0. -/
theorem bucket_accessors_spec (cfg : Config) :
    ((get_compilation_bucket cfg).1.name = cfg.GCLOUD_COMPILATION_BUCKET
      ∧ (get_compilation_bucket cfg).1.client = get_storage_client cfg)
  ∧ ((get_bot_bucket cfg).1.name = cfg.GCLOUD_BOT_BUCKET
      ∧ (get_bot_bucket cfg).1.client = get_storage_client cfg)
  ∧ ((get_error_log_bucket cfg).1.name = cfg.GCLOUD_ERROR_LOG_BUCKET
      ∧ (get_error_log_bucket cfg).1.client = get_storage_client cfg)
  ∧ (get_storage_client cfg).project = cfg.GCLOUD_PROJECT
  ∧ (∀ kind : Int, ∀ bname : String,
       pyIndex cfg.GCLOUD_REPLAY_BUCKETS kind = some bname →
         (get_replay_bucket cfg (some kind)).1
           = Except.ok ⟨get_storage_client cfg, bname⟩)
  ∧ get_replay_bucket cfg none = get_replay_bucket cfg (some 0) := by
  refine ⟨⟨rfl, rfl⟩, ⟨rfl, rfl⟩, ⟨rfl, rfl⟩, rfl, ?_, rfl⟩
  intro kind bname h
  simp [get_replay_bucket, h, get_bucket]

theorem bucket_accessors_spec_witness :
    pyIndex cfgW.GCLOUD_REPLAY_BUCKETS 1 = some ("replay1")
  ∧ (get_replay_bucket cfgW (some 1)).1
      = Except.ok ⟨get_storage_client cfgW, "replay1"⟩ :=
  ⟨by decide, (bucket_accessors_spec cfgW).2.2.2.2.1 1 ("replay1") (by decide)⟩

theorem listGetOpt_eq_none (l : List String) (n : Nat) (h : l.length ≤ n) :
    listGetOpt l n = none := by
  induction l generalizing n with
  | nil => rfl
  | cons x xs ih =>
    cases n with
    | zero => simp at h
    | succ m => exact ih m (Nat.le_of_succ_le_succ h)

theorem pyIndex_out_of_range (l : List String) (i : Int)
    (h : i < -(l.length : Int) ∨ (l.length : Int) ≤ i) : pyIndex l i = none := by
  rcases h with h | h
  · have hi : ¬ 0 ≤ i := by omega
    rw [pyIndex, if_neg hi, if_neg]
    omega
  · have hi : 0 ≤ i := by omega
    rw [pyIndex, if_pos hi]
    exact listGetOpt_eq_none l i.toNat (by omega)

/-- C10: for every integer `kind` outside the valid index range of the
configured replay bucket list (in Python, `-len .. len-1`; negative indices
count from the back), `get_replay_bucket(kind)` fails with an `IndexError`
from indexing the configuration list, and no bucket request reaches the
storage backend. -/
theorem get_replay_bucket_out_of_range (cfg : Config) (kind : Int)
    (h : kind < -(cfg.GCLOUD_REPLAY_BUCKETS.length : Int)
       ∨ (cfg.GCLOUD_REPLAY_BUCKETS.length : Int) ≤ kind) :
    (get_replay_bucket cfg (some kind)).1 = Except.error PyError.indexError
  ∧ (get_replay_bucket cfg (some kind)).2 = [] := by
  have hnone := pyIndex_out_of_range cfg.GCLOUD_REPLAY_BUCKETS kind h
  constructor <;> simp [get_replay_bucket, hnone]

theorem get_replay_bucket_out_of_range_witness :
    ((5 : Int) < -(cfgW.GCLOUD_REPLAY_BUCKETS.length : Int)
       ∨ (cfgW.GCLOUD_REPLAY_BUCKETS.length : Int) ≤ 5)
  ∧ ((get_replay_bucket cfgW (some 5)).1 = Except.error PyError.indexError
     ∧ (get_replay_bucket cfgW (some 5)).2 = []) :=
  ⟨by decide, get_replay_bucket_out_of_range cfgW 5 (by decide)⟩

theorem mem_addRanks_strip (r : Nat) (l : List BotRow) (y : RankedBot)
    (hy : y ∈ addRanks r l) : ∃ b ∈ l, y = rankRow y.bot_rank b := by
  induction l generalizing r with
  | nil => cases hy
  | cons b bs ih =>
    rcases List.mem_cons.mp hy with hyb | hy
    · exact ⟨b, List.mem_cons_self b bs, by subst hyb; rfl⟩
    · obtain ⟨b', hb', he⟩ := ih (r + 1) hy
      exact ⟨b', List.mem_cons_of_mem b hb', he⟩

theorem participant_filter_unique (ps : List HackathonParticipantRow) (u H : Nat)
    (hnd : ps.Nodup) :
    ps.filter (fun p => p.user_id == u && p.hackathon_id == H)
      = if ps.any (fun p => p.user_id == u && p.hackathon_id == H) then [⟨H, u⟩] else [] := by
  induction ps with
  | nil => rfl
  | cons p ps ih =>
    rw [List.nodup_cons] at hnd
    by_cases hp : (p.user_id == u && p.hackathon_id == H) = true
    · have hpe : p = ⟨H, u⟩ := by
        cases p with
        | mk hid uid =>
          simp only [Bool.and_eq_true, beq_iff_eq] at hp
          rw [hp.1, hp.2]
      have hfil : ps.filter (fun q => q.user_id == u && q.hackathon_id == H) = [] := by
        rw [List.filter_eq_nil_iff]
        intro q hq hq'
        have hqe : q = (⟨H, u⟩ : HackathonParticipantRow) := by
          cases q with
          | mk qh qu =>
            simp only [Bool.and_eq_true, beq_iff_eq] at hq'
            rw [hq'.1, hq'.2]
        exact hnd.1 ((hqe.trans hpe.symm) ▸ hq)
      simp [List.filter_cons, List.any_cons, hp, hfil, hpe]
    · simp only [List.filter_cons, List.any_cons, hp, if_neg hp, Bool.false_or,
        ih hnd.2]
      simp [hp]

theorem hackathon_join_eq_filter (db : DB) (H : Nat)
    (hnd : db.hackathon_participants.Nodup) :
    hackathon_join_bots db H
      = db.bots.filter (fun b => is_participant db H b.user_id) := by
  unfold hackathon_join_bots is_participant
  induction db.bots with
  | nil => rfl
  | cons b bs ih =>
    rw [List.flatMap_cons, ih, participant_filter_unique db.hackathon_participants b.user_id H hnd,
      List.filter_cons]
    by_cases hb : db.hackathon_participants.any
        (fun p => p.user_id == b.user_id && p.hackathon_id == H) = true
    · simp [hb]
    · simp [hb]

/-- C4: for every hackathon id `H`, under the key constraint that
`hackathon_participant` rows are pairwise distinct, the relation built by
`hackathon_ranked_bots_query H` carries ranks `1, 2, ..., M` where `M` is
the number of bots owned by participants of `H`, its projected rows are a
permutation of exactly those bots, and every returned row's owner is a
participant of `H`. -/
theorem hackathon_ranked_bots_spec (db : DB) (H : Nat)
    (hnd : db.hackathon_participants.Nodup) :
    ((hackathon_ranked_bots_rows db H).map (fun x => x.bot_rank)
        = List.range' 1 (db.bots.filter (fun b => is_participant db H b.user_id)).length)
  ∧ (((hackathon_ranked_bots_rows db H).map (fun x => (x.user_id, x.bot_id, x.score))).Perm
        ((db.bots.filter (fun b => is_participant db H b.user_id)).map
          (fun b => (b.user_id, b.id, b.score))))
  ∧ (∀ r ∈ hackathon_ranked_bots_rows db H, is_participant db H r.user_id = true) := by
  have hj := hackathon_join_eq_filter db H hnd
  refine ⟨?_, ?_, ?_⟩
  · simp only [hackathon_ranked_bots_rows]
    rw [addRanks_map_rank, (sortDesc_perm _).length_eq, hj]
  · simp only [hackathon_ranked_bots_rows]
    rw [addRanks_map_eq _ (fun b => (b.user_id, b.id, b.score)) (fun _ _ => rfl), hj]
    exact (sortDesc_perm _).map _
  · intro r hr
    simp only [hackathon_ranked_bots_rows] at hr
    obtain ⟨b, hb, he⟩ := mem_addRanks_strip 1 _ r hr
    have hbj : b ∈ hackathon_join_bots db H := (sortDesc_perm _).mem_iff.mp hb
    rw [hj] at hbj
    have hbf := List.mem_filter.mp hbj
    rw [he]
    exact hbf.2

theorem hackathon_ranked_bots_spec_witness :
    dbW.hackathon_participants.Nodup
  ∧ (((hackathon_ranked_bots_rows dbW 7).map (fun x => x.bot_rank)
        = List.range' 1 (dbW.bots.filter (fun b => is_participant dbW 7 b.user_id)).length)
     ∧ (((hackathon_ranked_bots_rows dbW 7).map (fun x => (x.user_id, x.bot_id, x.score))).Perm
          ((dbW.bots.filter (fun b => is_participant dbW 7 b.user_id)).map
            (fun b => (b.user_id, b.id, b.score))))
     ∧ (∀ r ∈ hackathon_ranked_bots_rows dbW 7, is_participant dbW 7 r.user_id = true)) :=
  ⟨by decide, hackathon_ranked_bots_spec dbW 7 (by decide)⟩

theorem foldl_min_choice (x : Nat) (xs : List Nat) :
    xs.foldl min x = x ∨ xs.foldl min x ∈ xs := by
  induction xs generalizing x with
  | nil => exact Or.inl rfl
  | cons y ys ih =>
    rw [List.foldl_cons]
    rcases ih (min x y) with h | h
    · rcases min_choice x y with hm | hm
      · exact Or.inl (h.trans hm)
      · exact Or.inr (by rw [h, hm]; exact List.mem_cons_self y ys)
    · exact Or.inr (List.mem_cons_of_mem y h)

theorem foldl_min_le_init (x : Nat) (xs : List Nat) : xs.foldl min x ≤ x := by
  induction xs generalizing x with
  | nil => exact Nat.le_refl x
  | cons y ys ih =>
    rw [List.foldl_cons]
    exact le_trans (ih (min x y)) (min_le_left x y)

theorem foldl_min_le_mem (x : Nat) (xs : List Nat) (y : Nat) (hy : y ∈ xs) :
    xs.foldl min x ≤ y := by
  induction xs generalizing x with
  | nil => cases hy
  | cons z zs ih =>
    rw [List.foldl_cons]
    rcases List.mem_cons.mp hy with hz | hz
    · rw [hz]
      exact le_trans (foldl_min_le_init (min x z) zs) (min_le_right x z)
    · exact ih (min x z) hz

theorem userBestRow_user_id (db : DB) (u : UserRow) (row : RankedUserRow)
    (h : userBestRow db u = some row) : row.user_id = u.id := by
  unfold userBestRow at h
  split at h
  · exact absurd h (by simp)
  · rw [← Option.some.inj h]

theorem userBestRow_none_iff (db : DB) (u : UserRow) :
    userBestRow db u = none
      ↔ (ranked_bots_rows db).filter (fun r => r.user_id == u.id) = [] := by
  unfold userBestRow
  split
  · rename_i heq
    simp [heq]
  · rename_i r rs heq
    simp [heq]

theorem userBestRow_rank_spec (db : DB) (u : UserRow) (row : RankedUserRow)
    (h : userBestRow db u = some row) :
    (∃ g ∈ ranked_bots_rows db, g.user_id = row.user_id ∧ g.bot_rank = row.rank)
  ∧ (∀ g ∈ ranked_bots_rows db, g.user_id = row.user_id → row.rank ≤ g.bot_rank) := by
  have huid : row.user_id = u.id := userBestRow_user_id db u row h
  unfold userBestRow at h
  split at h
  · exact absurd h (by simp)
  · rename_i r rs heq
    have hrow := Option.some.inj h
    have hrank : row.rank = (rs.map (fun x => x.bot_rank)).foldl min r.bot_rank := by
      rw [← hrow]
    constructor
    · rcases foldl_min_choice r.bot_rank (rs.map (fun x => x.bot_rank)) with hc | hc
      · have hrmem : r ∈ (ranked_bots_rows db).filter (fun x => x.user_id == u.id) := by
          rw [heq]; exact List.mem_cons_self r rs
        have hrf := List.mem_filter.mp hrmem
        exact ⟨r, hrf.1, by rw [huid]; exact eq_of_beq hrf.2, by rw [hrank, hc]⟩
      · obtain ⟨g, hg, hge⟩ := List.mem_map.mp hc
        have hgmem : g ∈ (ranked_bots_rows db).filter (fun x => x.user_id == u.id) := by
          rw [heq]; exact List.mem_cons_of_mem r hg
        have hgf := List.mem_filter.mp hgmem
        exact ⟨g, hgf.1, by rw [huid]; exact eq_of_beq hgf.2, by rw [hrank, ← hge]⟩
    · intro g hg hgu
      have hgmem : g ∈ (ranked_bots_rows db).filter (fun x => x.user_id == u.id) :=
        List.mem_filter.mpr ⟨hg, by simp [hgu, huid]⟩
      rw [heq] at hgmem
      rw [hrank]
      rcases List.mem_cons.mp hgmem with h1 | h1
      · rw [h1]
        exact foldl_min_le_init r.bot_rank (rs.map (fun x => x.bot_rank))
      · exact foldl_min_le_mem _ _ _ (List.mem_map_of_mem _ h1)

theorem ranked_map_user_id_perm (db : DB) :
    ((ranked_bots_rows db).map (fun r => r.user_id)).Perm
      (db.bots.map (fun b => b.user_id)) := by
  simp only [ranked_bots_rows]
  rw [addRanks_map_eq _ (fun b => b.user_id) (fun _ _ => rfl)]
  exact (sortDesc_perm _).map _

theorem user_filter_ne_nil_iff (db : DB) (u : UserRow) :
    ((ranked_bots_rows db).filter (fun r => r.user_id == u.id) ≠ [])
      ↔ (db.bots.any (fun b => b.user_id == u.id) = true) := by
  constructor
  · intro h
    obtain ⟨r, hr⟩ := List.exists_mem_of_ne_nil _ h
    have hrf := List.mem_filter.mp hr
    have hmem : u.id ∈ db.bots.map (fun b => b.user_id) :=
      (ranked_map_user_id_perm db).mem_iff.mp
        (eq_of_beq hrf.2 ▸ List.mem_map_of_mem _ hrf.1)
    obtain ⟨b, hb, hbe⟩ := List.mem_map.mp hmem
    exact List.any_eq_true.mpr ⟨b, hb, by simp [hbe]⟩
  · intro h
    obtain ⟨b, hb, hbu⟩ := List.any_eq_true.mp h
    have hmem : u.id ∈ (ranked_bots_rows db).map (fun r => r.user_id) :=
      (ranked_map_user_id_perm db).mem_iff.mpr
        (eq_of_beq hbu ▸ List.mem_map_of_mem _ hb)
    obtain ⟨r, hr, hre⟩ := List.mem_map.mp hmem
    exact List.ne_nil_of_mem (List.mem_filter.mpr ⟨hr, by simp [hre]⟩)

theorem filterMap_userBest_map_eq (db : DB) (us : List UserRow) :
    (us.filterMap (userBestRow db)).map (fun r => r.user_id)
      = (us.filter (fun u => db.bots.any (fun b => b.user_id == u.id))).map
          (fun u => u.id) := by
  induction us with
  | nil => rfl
  | cons u us ih =>
    by_cases hu : db.bots.any (fun b => b.user_id == u.id) = true
    · have hne := (user_filter_ne_nil_iff db u).mpr hu
      cases hrow : userBestRow db u with
      | none => exact absurd ((userBestRow_none_iff db u).mp hrow) hne
      | some row =>
        simp only [List.filterMap_cons, hrow, List.filter_cons, hu, if_true,
          List.map_cons, ih, userBestRow_user_id db u row hrow]
    · have hnil : (ranked_bots_rows db).filter (fun r => r.user_id == u.id) = [] := by
        by_contra hne
        exact hu ((user_filter_ne_nil_iff db u).mp hne)
      have hrow : userBestRow db u = none := (userBestRow_none_iff db u).mpr hnil
      simp only [List.filterMap_cons, hrow, List.filter_cons, hu, if_false, Bool.false_eq_true]
      exact ih

/-- C7: under distinct user ids, `ranked_users_query` yields exactly one
row per user that owns at least one bot (in table order), no user appears
twice, and each row's `rank` is the minimum rank among that user's bots in
the global ranking: some bot of the user has that rank and no bot of the
user has a smaller one. -/
theorem ranked_users_spec (db : DB) (hu : (db.users.map (fun u => u.id)).Nodup) :
    ((ranked_users_rows db).map (fun r => r.user_id)
        = (db.users.filter (fun u => db.bots.any (fun b => b.user_id == u.id))).map
            (fun u => u.id))
  ∧ ((ranked_users_rows db).map (fun r => r.user_id)).Nodup
  ∧ ∀ row ∈ ranked_users_rows db,
      (∃ g ∈ ranked_bots_rows db, g.user_id = row.user_id ∧ g.bot_rank = row.rank)
    ∧ (∀ g ∈ ranked_bots_rows db, g.user_id = row.user_id → row.rank ≤ g.bot_rank) := by
  refine ⟨filterMap_userBest_map_eq db db.users, ?_, ?_⟩
  · rw [ranked_users_rows, filterMap_userBest_map_eq db db.users]
    exact hu.sublist ((List.filter_sublist _).map _)
  · intro row hrow
    obtain ⟨u, _, hrow'⟩ := List.mem_filterMap.mp hrow
    exact userBestRow_rank_spec db u row hrow'

theorem ranked_users_spec_witness :
    (dbW.users.map (fun u => u.id)).Nodup
  ∧ (((ranked_users_rows dbW).map (fun r => r.user_id)
        = (dbW.users.filter (fun u => dbW.bots.any (fun b => b.user_id == u.id))).map
            (fun u => u.id))
     ∧ ((ranked_users_rows dbW).map (fun r => r.user_id)).Nodup
     ∧ ∀ row ∈ ranked_users_rows dbW,
         (∃ g ∈ ranked_bots_rows dbW, g.user_id = row.user_id ∧ g.bot_rank = row.rank)
       ∧ (∀ g ∈ ranked_bots_rows dbW, g.user_id = row.user_id → row.rank ≤ g.bot_rank)) :=
  ⟨by decide, ranked_users_spec dbW (by decide)⟩

theorem ranked_map_pair_perm (db : DB) :
    ((ranked_bots_rows db).map (fun r => (r.user_id, r.bot_id))).Perm
      (db.bots.map (fun b => (b.user_id, b.id))) := by
  simp only [ranked_bots_rows]
  rw [addRanks_map_eq _ (fun b => (b.user_id, b.id)) (fun _ _ => rfl)]
  exact (sortDesc_perm _).map _

theorem hackathon_map_pair_nodup (db : DB) (H : Nat)
    (hnd : db.hackathon_participants.Nodup)
    (hpair : (db.bots.map (fun b => (b.user_id, b.id))).Nodup) :
    ((hackathon_ranked_bots_rows db H).map (fun r => (r.user_id, r.bot_id))).Nodup := by
  have hperm : ((hackathon_ranked_bots_rows db H).map (fun r => (r.user_id, r.bot_id))).Perm
      ((db.bots.filter (fun b => is_participant db H b.user_id)).map
        (fun b => (b.user_id, b.id))) := by
    simp only [hackathon_ranked_bots_rows]
    rw [addRanks_map_eq _ (fun b => (b.user_id, b.id)) (fun _ _ => rfl),
      hackathon_join_eq_filter db H hnd]
    exact (sortDesc_perm _).map _
  exact hperm.nodup_iff.mpr (hpair.sublist ((List.filter_sublist _).map _))

theorem mem_hackathon_join_bots (db : DB) (H : Nat) (x : BotRow)
    (hx : x ∈ hackathon_join_bots db H) : x ∈ db.bots := by
  obtain ⟨b, hb, hx⟩ := List.mem_flatMap.mp hx
  obtain ⟨_, _, he⟩ := List.mem_map.mp hx
  exact he ▸ hb

theorem mem_hrbu_rows (db : DB) (H : Nat) (r : HRBURow)
    (hr : r ∈ hackathon_ranked_bots_users_rows db H) :
    ∃ g ∈ ranked_bots_rows db, ∃ l ∈ hackathon_ranked_bots_rows db H,
      r.user_id = g.user_id ∧ l.user_id = g.user_id ∧ l.bot_id = g.bot_id
      ∧ r.bot_id = g.bot_id ∧ r.global_rank = g.bot_rank ∧ r.local_rank = l.bot_rank := by
  unfold hackathon_ranked_bots_users_rows at hr
  obtain ⟨g, hg, hr⟩ := List.mem_flatMap.mp hr
  obtain ⟨u, hu, hr⟩ := List.mem_flatMap.mp hr
  obtain ⟨l, hl, hr⟩ := List.mem_flatMap.mp hr
  obtain ⟨o, _, hre⟩ := List.mem_map.mp hr
  have hlf := List.mem_filter.mp hl
  have hcond := hlf.2
  simp only [Bool.and_eq_true, beq_iff_eq] at hcond
  have hucond := (List.mem_filter.mp hu).2
  exact ⟨g, hg, l, hlf.1, by rw [← hre]; exact (eq_of_beq hucond).symm, hcond.1, hcond.2,
    by rw [← hre], by rw [← hre], by rw [← hre]⟩

/-- C5: under the key constraints that `hackathon_participant` rows and the
composite bot keys `(user_id, bot_id)` are each pairwise distinct (bot ids
need only be unique per user, as under the composite key the code's join
reflects): every row of `hackathon_ranked_bots_users_query H` carries as
`global_rank` exactly the rank its bot — identified by its
`(user_id, bot_id)` pair — receives in the full global ranking and as
`local_rank` exactly its rank in the hackathon-filtered ranking (in each
case a row with that pair exists in the ranking and every such row has that
rank); and the `(user_id, bot_id)` join is inner on both sides — every bot
of the hackathon-local ranking also appears in the global ranking, so a bot
absent from the global ranking can never be reported. -/
theorem hackathon_composite_spec (db : DB) (H : Nat)
    (hnd : db.hackathon_participants.Nodup)
    (hpair : (db.bots.map (fun b => (b.user_id, b.id))).Nodup) :
    (∀ r ∈ hackathon_ranked_bots_users_rows db H,
        (∃ g ∈ ranked_bots_rows db,
            g.user_id = r.user_id ∧ g.bot_id = r.bot_id ∧ g.bot_rank = r.global_rank)
      ∧ (∀ g ∈ ranked_bots_rows db,
            g.user_id = r.user_id → g.bot_id = r.bot_id → g.bot_rank = r.global_rank)
      ∧ (∃ l ∈ hackathon_ranked_bots_rows db H,
            l.user_id = r.user_id ∧ l.bot_id = r.bot_id ∧ l.bot_rank = r.local_rank)
      ∧ (∀ l ∈ hackathon_ranked_bots_rows db H,
            l.user_id = r.user_id → l.bot_id = r.bot_id → l.bot_rank = r.local_rank))
  ∧ (∀ l ∈ hackathon_ranked_bots_rows db H,
        ∃ g ∈ ranked_bots_rows db, g.user_id = l.user_id ∧ g.bot_id = l.bot_id) := by
  have hgnd : ((ranked_bots_rows db).map (fun x => (x.user_id, x.bot_id))).Nodup :=
    (ranked_map_pair_perm db).nodup_iff.mpr hpair
  have hlnd := hackathon_map_pair_nodup db H hnd hpair
  constructor
  · intro r hr
    obtain ⟨g, hg, l, hl, hru, hlu, hlb, hrb, hrg, hrl⟩ := mem_hrbu_rows db H r hr
    refine ⟨⟨g, hg, hru.symm, hrb.symm, hrg.symm⟩, ?_,
      ⟨l, hl, by rw [hlu, hru], by rw [hlb, hrb], hrl.symm⟩, ?_⟩
    · intro g' hg' hg'u hg'b
      have : g' = g :=
        List.inj_on_of_nodup_map hgnd hg' hg (by rw [hg'u, hg'b, hru, hrb])
      rw [this, hrg]
    · intro l' hl' hl'u hl'b
      have : l' = l :=
        List.inj_on_of_nodup_map hlnd hl' hl (by rw [hl'u, hl'b, hru, hrb, ← hlu, ← hlb])
      rw [this, hrl]
  · intro l hl
    simp only [hackathon_ranked_bots_rows] at hl
    obtain ⟨b, hb, he⟩ := mem_addRanks_strip 1 _ l hl
    have hbb : b ∈ db.bots :=
      mem_hackathon_join_bots db H b ((sortDesc_perm _).mem_iff.mp hb)
    have hmem : (b.user_id, b.id) ∈ (ranked_bots_rows db).map (fun x => (x.user_id, x.bot_id)) :=
      (ranked_map_pair_perm db).mem_iff.mpr (List.mem_map_of_mem _ hbb)
    obtain ⟨g, hg, hge⟩ := List.mem_map.mp hmem
    refine ⟨g, hg, ?_, ?_⟩
    · rw [he]
      exact (congrArg Prod.fst hge)
    · rw [he]
      exact (congrArg Prod.snd hge)

theorem hackathon_composite_spec_witness :
    (dbW2.hackathon_participants.Nodup
       ∧ (dbW2.bots.map (fun b => (b.user_id, b.id))).Nodup)
  ∧ ((∀ r ∈ hackathon_ranked_bots_users_rows dbW2 7,
        (∃ g ∈ ranked_bots_rows dbW2,
            g.user_id = r.user_id ∧ g.bot_id = r.bot_id ∧ g.bot_rank = r.global_rank)
      ∧ (∀ g ∈ ranked_bots_rows dbW2,
            g.user_id = r.user_id → g.bot_id = r.bot_id → g.bot_rank = r.global_rank)
      ∧ (∃ l ∈ hackathon_ranked_bots_rows dbW2 7,
            l.user_id = r.user_id ∧ l.bot_id = r.bot_id ∧ l.bot_rank = r.local_rank)
      ∧ (∀ l ∈ hackathon_ranked_bots_rows dbW2 7,
            l.user_id = r.user_id → l.bot_id = r.bot_id → l.bot_rank = r.local_rank))
     ∧ (∀ l ∈ hackathon_ranked_bots_rows dbW2 7,
          ∃ g ∈ ranked_bots_rows dbW2, g.user_id = l.user_id ∧ g.bot_id = l.bot_id)) :=
  ⟨⟨by decide, by decide⟩, hackathon_composite_spec dbW2 7 (by decide) (by decide)⟩
